import Mathlib

/-!
# Verification of the evolutionary-mcp multi-tenant versioning core

A shallow embedding of the repository's core: the append-only workflow
versioning store (`CreateWorkflow`, `ListWorkflows` in
`backend/internal/repository/postgres_memorystore.go`, with the schema
constraints of `backend/migrations/001_init.up.sql`), the memory store
(`Save`, `Get`, `Search`, `Update`), the memory service (`Remember`,
`Recall`, `GiveFeedback` in `backend/internal/services/memory_service.go`),
tenant resolution and the authentication middleware
(`backend/internal/auth/auth.go`).

Database tables are embedded as Lean lists of row structures; every SQL
statement the Go code issues is translated into the corresponding list
operation, including the unique-index checks of the schema.  Machine floats
(`float64`, pgvector components) are modelled as `Rat`; JSONB payloads are
modelled as `String` stand-ins (no claim depends on their structure).
-/

namespace EvolutionaryMCP

/-- A value stored under the `"tenant_id"` key of a Go `context.Context`:
either a string, or some non-string value (for which the Go type assertion
`ctx.Value("tenant_id").(string)` yields `""`). -/
inductive CtxValue where
  | str (s : String)
  | nonStr
deriving DecidableEq

/-- A request context: `none` when no `"tenant_id"` value is present. -/
abbrev Ctx := Option CtxValue

/-- The tenant-resolution prelude shared by `Search` and `ListWorkflows`
(postgres_memorystore.go): `tenantID, _ := ctx.Value("tenant_id").(string);
if tenantID == "" { tenantID = "default" }`. -/
def resolveCtxTenant (ctx : Ctx) : String :=
  let tenantID := match ctx with
    | some (CtxValue.str s) => s
    | _ => ""
  if tenantID == "" then "default" else tenantID

/-! ## Workflow ledger (`workflows` table, `models.Workflow`) -/

/-- A row of the `workflows` table / the `models.Workflow` struct.
Field defaults are the Go zero values.  The `input_schema`/`output_schema`
JSONB columns are `Option String` stand-ins; the `created_at`/`updated_at`
columns are filled by the database (`NOW()`) and carried by no claim, so
they are elided. -/
structure WorkflowRow where
  id : String := ""
  tenantId : String := ""
  workflowId : String := ""
  version : Int := 0
  isLatest : Bool := false
  name : String := ""
  description : String := ""
  status : String := ""
  inputSchema : Option String := none
  outputSchema : Option String := none
  createdBy : String := ""
deriving DecidableEq

/-- `tenant_id = t AND workflow_id = w`: the row belongs to concept `w` of
tenant `t`. -/
def pairB (t w : String) (r : WorkflowRow) : Bool :=
  r.tenantId == t && r.workflowId == w

/-- The row is the pair's latest version. -/
def latestPairB (t w : String) (r : WorkflowRow) : Bool :=
  pairB t w r && r.isLatest

/-- Number of rows of the pair `(t, w)`. -/
def countPair (t w : String) (db : List WorkflowRow) : Nat :=
  db.countP (pairB t w)

/-- Number of rows of the pair `(t, w)` carrying `is_latest = true`. -/
def countLatest (t w : String) (db : List WorkflowRow) : Nat :=
  db.countP (latestPairB t w)

/-- Effect of `UPDATE workflows SET is_latest = false WHERE workflow_id = $1
AND tenant_id = $2 AND is_latest = true` on a single row. -/
def retireFlag (t w : String) (r : WorkflowRow) : WorkflowRow :=
  if r.workflowId == w && r.tenantId == t && r.isLatest then
    { r with isLatest := false }
  else r

/-- The retire statement applied to the whole table. -/
def retireLatest (t w : String) (db : List WorkflowRow) : List WorkflowRow :=
  db.map (retireFlag t w)

/-- `MAX` aggregate over a list of values: `none` on the empty set (SQL
`MAX` returns `NULL` when no rows match). -/
def maxVersionAux : List Int → Option Int
  | [] => none
  | v :: vs =>
    match maxVersionAux vs with
    | none => some v
    | some m => some (max v m)

/-- `SELECT MAX(version) FROM workflows WHERE workflow_id = $1 AND
tenant_id = $2`. -/
def maxVersion (t w : String) (db : List WorkflowRow) : Option Int :=
  maxVersionAux ((db.filter (fun r => r.workflowId == w && r.tenantId == t)).map (·.version))

/-- Violation of the primary key `workflows.id`. -/
def violatesPkey (db : List WorkflowRow) (r : WorkflowRow) : Bool :=
  db.any (fun x => x.id == r.id)

/-- Violation of `idx_workflows_version`: `UNIQUE (tenant_id, workflow_id,
version)`. -/
def violatesVersionIdx (db : List WorkflowRow) (r : WorkflowRow) : Bool :=
  db.any (fun x => x.tenantId == r.tenantId && x.workflowId == r.workflowId && x.version == r.version)

/-- Violation of `idx_workflows_latest_active`: `UNIQUE (tenant_id,
workflow_id) WHERE is_latest = TRUE` (both the existing and the inserted
row must carry the flag). -/
def violatesLatestIdx (db : List WorkflowRow) (r : WorkflowRow) : Bool :=
  db.any (fun x => x.tenantId == r.tenantId && x.workflowId == r.workflowId && x.isLatest && r.isLatest)

/-- The `INSERT INTO workflows ...` statement, checked against the three
uniqueness constraints of `001_init.up.sql`; a violation is a statement
error (which the Go code turns into a rollback). -/
def insertWorkflowRow (db : List WorkflowRow) (r : WorkflowRow) :
    Except String (List WorkflowRow) :=
  if violatesPkey db r then .error "duplicate key value violates unique constraint workflows_pkey"
  else if violatesVersionIdx db r then .error "duplicate key value violates unique constraint idx_workflows_version"
  else if violatesLatestIdx db r then .error "duplicate key value violates unique constraint idx_workflows_latest_active"
  else .ok (db ++ [r])

/-- `if workflow.ID == "" { workflow.ID = uuid.New().String() }`
(postgres_memorystore.go, lines 252-254); `freshId` stands for the fresh
uuid. -/
def wfWithId (wf : WorkflowRow) (freshId : String) : WorkflowRow :=
  if wf.id == "" then { wf with id := freshId } else wf

/-- The table as the transaction sees it at insert time: when a concept id
was supplied, the pair's latest row has been retired (lines 265-270);
otherwise the table is untouched. -/
def preInsertDb (db : List WorkflowRow) (wf : WorkflowRow) : List WorkflowRow :=
  if wf.workflowId != "" then retireLatest wf.tenantId wf.workflowId db else db

/-- `nextVersion` as the transaction computes it (lines 264-282):
initialized to 1; when a concept id was supplied, `MAX(version) + 1` over
the pair's rows of the in-transaction table, kept at 1 when the `MAX` is
`NULL`. -/
def nextVersion (db : List WorkflowRow) (wf : WorkflowRow) : Int :=
  if wf.workflowId != "" then
    match maxVersion wf.tenantId wf.workflowId (preInsertDb db wf) with
    | some m => m + 1
    | none => 1
  else 1

/-- The row the transaction inserts: the input workflow with
`workflow.Version = nextVersion` and `workflow.IsLatest = true`
(lines 285-292). -/
def newRowFor (db : List WorkflowRow) (wf : WorkflowRow) (freshId : String) :
    WorkflowRow :=
  { wfWithId wf freshId with version := nextVersion db wf, isLatest := true }

/-- `CreateWorkflow` (postgres_memorystore.go, lines 250-301): inside one
transaction, optionally retire the pair's latest row and compute
`MAX(version) + 1`, then insert the new row with `is_latest = true`.
On any error the transaction rolls back, so an error leaves the table
unchanged (the caller keeps `db`).  The `ctx` parameter is carried but,
as in the Go code, never consulted. -/
def CreateWorkflow (ctx : Ctx) (db : List WorkflowRow) (wf : WorkflowRow)
    (freshId : String) : Except String (WorkflowRow × List WorkflowRow) :=
  match insertWorkflowRow (preInsertDb db wf) (newRowFor db wf freshId) with
  | .ok db2 => .ok (newRowFor db wf freshId, db2)
  | .error e => .error e

/-- `ListWorkflows` (postgres_memorystore.go, lines 222-246): `SELECT ...
FROM workflows WHERE is_latest = true AND tenant_id = $1`, the tenant taken
from the request context with the `"default"` fallback. -/
def ListWorkflows (ctx : Ctx) (db : List WorkflowRow) : List WorkflowRow :=
  db.filter (fun r => r.isLatest && r.tenantId == resolveCtxTenant ctx)

/-- One `CreateWorkflow` call in a history.  `externalFailure` models any
non-constraint failure (begin/exec/query/commit error, cancellation): the
deferred `tx.Rollback` discards the transaction, leaving the table
unchanged. -/
structure WfOp where
  wf : WorkflowRow
  freshId : String
  externalFailure : Bool := false

/-- Apply one operation: a failed operation (constraint violation or
external failure) rolls back and leaves the table as it was. -/
def applyWfOp (db : List WorkflowRow) (op : WfOp) : List WorkflowRow :=
  if op.externalFailure then db
  else
    match CreateWorkflow none db op.wf op.freshId with
    | .ok (_, db') => db'
    | .error _ => db

/-- Run a sequence of `CreateWorkflow` operations from the empty table. -/
def runWfOps (ops : List WfOp) : List WorkflowRow :=
  ops.foldl applyWfOp []

/-! ## Memory ledger (`memories` table, `repository.Memory`) -/

/-- The Go `repository.Memory` struct (interface.go).  `Provenance`
(`map[string]interface{}`, a JSONB payload) is a `String` stand-in. -/
structure Memory where
  id : String := ""
  content : String := ""
  embedding : List Rat := []
  confidence : Rat := 0
  version : Int := 0
  provenance : String := ""
  workflowId : String := ""
  tenantId : String := ""
deriving DecidableEq

/-- A row of the `memories` table; `workflow_id` is a nullable column. -/
structure MemoryRow where
  id : String := ""
  tenantId : String := ""
  content : String := ""
  embedding : List Rat := []
  confidence : Rat := 0
  version : Int := 0
  provenance : String := ""
  workflowId : Option String := none
deriving DecidableEq

/-- `Save`/`Update` translate an empty `WorkflowID` to SQL `NULL`. -/
def normWorkflowId (w : String) : Option String :=
  if w == "" then none else some w

/-- The column values `Save` writes for a memory. -/
def memoryToRow (m : Memory) : MemoryRow :=
  { id := m.id, tenantId := m.tenantId, content := m.content,
    embedding := m.embedding, confidence := m.confidence,
    version := m.version, provenance := m.provenance,
    workflowId := normWorkflowId m.workflowId }

/-- The struct `Get`/`Search` scan a row back into (`workflow_id IS NULL`
becomes the empty string). -/
def rowToMemory (r : MemoryRow) : Memory :=
  { id := r.id, tenantId := r.tenantId, content := r.content,
    embedding := r.embedding, confidence := r.confidence,
    version := r.version, provenance := r.provenance,
    workflowId := r.workflowId.getD "" }

/-- `Save` (postgres_memorystore.go, lines 136-148): `INSERT INTO memories
...`; a duplicate `id` violates the primary key.  `ctx` is carried but not
consulted. -/
def Save (ctx : Ctx) (db : List MemoryRow) (m : Memory) :
    Except String (List MemoryRow) :=
  if db.any (fun r => r.id == m.id) then
    .error "duplicate key value violates unique constraint memories_pkey"
  else .ok (db ++ [memoryToRow m])

/-- `Get` (postgres_memorystore.go, lines 151-163): `SELECT ... FROM
memories WHERE id = $1`, no tenant filter; `none` models the
`pgx.ErrNoRows` error.  `ctx` is carried but not consulted. -/
def Get (ctx : Ctx) (db : List MemoryRow) (id : String) : Option Memory :=
  (db.find? (fun r => r.id == id)).map rowToMemory

/-- `Update` (postgres_memorystore.go, lines 202-214): `UPDATE memories SET
content, embedding, confidence, version, provenance, workflow_id WHERE id =
$7` — `tenant_id` is neither updated nor part of the `WHERE` clause.
`ctx` is carried but not consulted. -/
def Update (ctx : Ctx) (db : List MemoryRow) (m : Memory) : List MemoryRow :=
  db.map (fun r =>
    if r.id == m.id then
      { r with content := m.content, embedding := m.embedding,
               confidence := m.confidence, version := m.version,
               provenance := m.provenance,
               workflowId := normWorkflowId m.workflowId }
    else r)

/-- Stable insertion of a row into a list ordered by ascending key, used to
model the SQL `ORDER BY`. -/
def insertByKey (key : MemoryRow → Rat) (r : MemoryRow) :
    List MemoryRow → List MemoryRow
  | [] => [r]
  | x :: xs => if key r ≤ key x then r :: x :: xs else x :: insertByKey key r xs

/-- Sort a list of rows by ascending key (insertion sort). -/
def sortByKey (key : MemoryRow → Rat) : List MemoryRow → List MemoryRow
  | [] => []
  | x :: xs => insertByKey key x (sortByKey key xs)

/-- `Search` (postgres_memorystore.go, lines 166-199): `SELECT ... FROM
memories WHERE tenant_id = $1 ORDER BY embedding <=> $2 LIMIT 10`, the
tenant taken from the context with the `"default"` fallback.  `dist` is
the pgvector `<=>` operator, a parameter of the model (the claims are
independent of the metric). -/
def Search (dist : List Rat → List Rat → Rat) (ctx : Ctx)
    (db : List MemoryRow) (embedding : List Rat) : List Memory :=
  let tenantID := resolveCtxTenant ctx
  ((sortByKey (fun r => dist r.embedding embedding)
      (db.filter (fun r => r.tenantId == tenantID))).take 10).map rowToMemory

/-! ## Memory service (`memory_service.go`) -/

/-- An embedding client `MLClient.GetEmbedding`: either a vector or an
error (dependency unavailable, non-200 status, decode failure). -/
abbrev MLClient := String → Except String (List Rat)

/-- `Remember` (memory_service.go, lines 24-44): fetch the embedding, then
build the memory (`Confidence: 0.5`, `Version: 1`, `ID` a fresh uuid) and
`Save` it.  The returned pair carries the service result and the store
state after the call (unchanged on any error, by rollback of the single
failed `INSERT`). -/
def Remember (ml : MLClient) (ctx : Ctx) (db : List MemoryRow)
    (content : String) (freshId : String) :
    Except String Memory × List MemoryRow :=
  match ml content with
  | .error e => (.error e, db)
  | .ok embedding =>
    let memory : Memory :=
      { id := freshId, content := content, embedding := embedding,
        confidence := 1/2, version := 1 }
    match Save ctx db memory with
    | .error e => (.error e, db)
    | .ok db' => (.ok memory, db')

/-- `Recall` (memory_service.go, lines 47-54): fetch the query embedding,
then `Search`. -/
def Recall (ml : MLClient) (dist : List Rat → List Rat → Rat) (ctx : Ctx)
    (db : List MemoryRow) (query : String) : Except String (List Memory) :=
  match ml query with
  | .error e => .error e
  | .ok embedding => .ok (Search dist ctx db embedding)

/-- `GiveFeedback` (memory_service.go, lines 57-67): `Get` the memory, set
`Confidence`, increment `Version`, and `Update` the same row. -/
def GiveFeedback (ctx : Ctx) (db : List MemoryRow) (id : String)
    (confidence : Rat) : Except String (List MemoryRow) :=
  match Get ctx db id with
  | none => .error "no rows in result set"
  | some memory =>
    .ok (Update ctx db { memory with confidence := confidence,
                                     version := memory.version + 1 })

/-! ## Tenants (`tenants` table, `models.Tenant`, auth.go provisioning) -/

/-- The `models.Tenant` struct / a row of the `tenants` table (timestamp
columns elided, as above). -/
structure Tenant where
  id : String := ""
  name : String := ""
  domain : String := ""
deriving DecidableEq

/-- `GetTenantByDomain` (postgres_memorystore.go, lines 304-311):
`SELECT ... FROM tenants WHERE domain = $1`. -/
def GetTenantByDomain (db : List Tenant) (domain : String) : Option Tenant :=
  db.find? (fun t => t.domain == domain)

/-- `CreateTenant` (postgres_memorystore.go, lines 314-319): `INSERT INTO
tenants (name, domain, ...) RETURNING id`; the `UNIQUE` constraint on
`domain` (001_init.up.sql) makes a duplicate-domain insert fail.  `freshId`
stands for the database-generated uuid. -/
def CreateTenant (db : List Tenant) (t : Tenant) (freshId : String) :
    Except String (Tenant × List Tenant) :=
  if db.any (fun x => x.domain == t.domain) then
    .error "duplicate key value violates unique constraint tenants_domain_key"
  else
    let t' := { t with id := freshId }
    .ok (t', db ++ [t'])

/-- The provisioning branch of `RequireAuth` (auth.go, lines 218-230)
executed after `GetTenantByDomain` has failed: build the tenant with
`Name = Domain = domain` and `CreateTenant` it; a create error is wrapped
and propagated to the caller (HTTP 500) — there is no re-fetch. -/
def provisionAfterMiss (db : List Tenant) (domain : String)
    (freshId : String) : Except String (String × List Tenant) :=
  match CreateTenant db { name := domain, domain := domain } freshId with
  | .ok (t, db') => .ok (t.id, db')
  | .error e => .error ("failed to provision tenant: " ++ e)

/-- The whole lookup-or-provision step of `RequireAuth` against a single
table snapshot. -/
def lookupOrProvisionTenant (db : List Tenant) (domain : String)
    (freshId : String) : Except String (String × List Tenant) :=
  match GetTenantByDomain db domain with
  | some t => .ok (t.id, db)
  | none => provisionAfterMiss db domain freshId

/-! ## Authentication (`auth.go`) -/

/-- ASCII upper-casing of one character, as `strings.ToUpper` acts on the
ASCII range (the only range the `"DEV"` comparison can hit). -/
def asciiToUpper (c : Char) : Char :=
  if 'a' ≤ c ∧ c ≤ 'z' then Char.ofNat (c.toNat - 32) else c

/-- `strings.ToUpper` on ASCII strings. -/
def strToUpper (s : String) : String :=
  String.mk (s.data.map asciiToUpper)

/-- `isDev := strings.ToUpper(cfg.Environment) == "DEV"` (auth.go, line 42). -/
def isDevEnv (environment : String) : Bool :=
  strToUpper environment == "DEV"

/-- `shouldBypass := isDev && cfg.DevModeBypass` (auth.go, line 43). -/
def shouldBypass (environment : String) (devModeBypass : Bool) : Bool :=
  isDevEnv environment && devModeBypass

/-- Verification outcomes of the OIDC token verifier. -/
inductive VerifyError where
  | invalidSignature
  | expired
  | invalidAudience
deriving DecidableEq

/-- The credential as the verifier sees it: whether its signature checks
out against the provider's keys, whether its validity window has passed,
its audience claim, and its email claim. -/
structure OidcToken where
  signatureValid : Bool := true
  isExpired : Bool := false
  audience : String := ""
  email : String := ""
deriving DecidableEq

/-- An `oidc.Config`: the expected client id and the `SkipClientIDCheck`
flag. -/
structure OidcConfig where
  clientID : String := ""
  skipClientIDCheck : Bool := false
deriving DecidableEq

/-- Modelled from the spec: the external `go-oidc` library's
`IDTokenVerifier.Verify` is not part of this repository; per the spec
(§4.1), verification checks the signature and the expiry unconditionally,
and requires the audience to equal the configured client identifier unless
the config skips the client-id check. -/
def oidcVerify (cfg : OidcConfig) (tok : OidcToken) :
    Except VerifyError OidcToken :=
  if tok.signatureValid = false then .error .invalidSignature
  else if tok.isExpired then .error .expired
  else if !cfg.skipClientIDCheck && tok.audience != cfg.clientID then
    .error .invalidAudience
  else .ok tok

/-- The two verifier configurations built by `New` (auth.go, lines 68-72):
the session verifier checks the server's own client id; the API (bearer)
verifier sets `SkipClientIDCheck` because access tokens may carry a
different audience such as `"api://default"`. -/
def sessionVerifierCfg (clientID : String) : OidcConfig :=
  { clientID := clientID, skipClientIDCheck := false }

/-- The bearer-path verifier configuration (auth.go, line 72). -/
def apiVerifierCfg : OidcConfig :=
  { clientID := "", skipClientIDCheck := true }

/-- How the credential reached the server: `Authorization: Bearer` header,
or the `id_token` session cookie. -/
inductive Transport where
  | bearer
  | sessionCookie
deriving DecidableEq

/-- The `Auth` struct fields relevant to the claims, as `New` computes
them (auth.go, lines 41-83). -/
structure AuthState where
  clientID : String := ""
  devMode : Bool := false
  authBypass : Bool := false
deriving DecidableEq

/-- `New` (auth.go): `devMode := isDev`, `authBypass := shouldBypass`. -/
def authNew (environment : String) (devModeBypass : Bool)
    (clientID : String) : AuthState :=
  { clientID := clientID,
    devMode := isDevEnv environment,
    authBypass := shouldBypass environment devModeBypass }

/-- The verification step of `RequireAuth` (auth.go, lines 175-197): the
bearer path uses the API verifier, the cookie path the session verifier. -/
def verifyCredential (a : AuthState) (tr : Transport) (tok : OidcToken) :
    Except VerifyError OidcToken :=
  match tr with
  | .bearer => oidcVerify apiVerifierCfg tok
  | .sessionCookie => oidcVerify (sessionVerifierCfg a.clientID) tok

/-- The non-bypass branch of `RequireAuth` (auth.go, lines 174-208):
verify the transported credential and extract its email claim. -/
def verifiedEmail (a : AuthState) (tr : Transport) (tok : OidcToken) :
    Except VerifyError String :=
  match verifyCredential a tr tok with
  | .ok t => .ok t.email
  | .error e => .error e

/-- The identity `RequireAuth` resolves (auth.go, lines 168-208): under the
bypass the fixed placeholder `dev@localhost` is substituted without any
verification; otherwise the transported credential is verified and its
email claim extracted. -/
def requireAuthEmail (a : AuthState) (tr : Transport) (tok : OidcToken) :
    Except VerifyError String :=
  if a.authBypass then .ok "dev@localhost"
  else verifiedEmail a tr tok

/-! ## Concrete scenario values (spec §8: the "Summarizer" evolution) -/

/-- The workflow passed to the first `CreateWorkflow` call of the spec's
scenario: concept `"wf-1"` of tenant `"tenant-a"`. -/
def wfSummarizerV1 : WorkflowRow :=
  { id := "vid-1", tenantId := "tenant-a", workflowId := "wf-1",
    name := "Summarizer", description := "v1 description", status := "active" }

/-- The evolution of the same concept with a new description. -/
def wfSummarizerV2 : WorkflowRow :=
  { id := "vid-2", tenantId := "tenant-a", workflowId := "wf-1",
    name := "Summarizer", description := "v2 description", status := "active" }

/-- The row the first call inserts. -/
def rowV1 : WorkflowRow := { wfSummarizerV1 with version := 1, isLatest := true }

/-- The row the second call inserts. -/
def rowV2 : WorkflowRow := { wfSummarizerV2 with version := 2, isLatest := true }

/-- The first row after the second call retires it. -/
def rowV1Retired : WorkflowRow := { rowV1 with isLatest := false }

/-- A stored memory fact of tenant A, at the initial confidence. -/
def mRow0 : MemoryRow :=
  { id := "m1", tenantId := "tenant-a", content := "fact", confidence := 1/2, version := 1 }

/-- A memory row owned by tenant B. -/
def mRowB : MemoryRow :=
  { id := "m1", tenantId := "tenant-b", content := "secret", confidence := 1/2, version := 1 }

/-- The memory value a caller passes to `Update` while tenant A is in
scope, targeting the row id owned by tenant B. -/
def memTampered : Memory :=
  { id := "m1", content := "tampered", confidence := 1, version := 2 }

/-- A memory row of the `"default"` tenant. -/
def mRowDefault : MemoryRow :=
  { id := "m0", tenantId := "default", content := "note", confidence := 1, version := 1 }

/-- A latest workflow row of the `"default"` tenant. -/
def rowWfDefault : WorkflowRow :=
  { id := "vid-0", tenantId := "default", workflowId := "wf-0", version := 1,
    isLatest := true, name := "Base", status := "active" }

/-! ## Helper lemmas: the retire statement and the latest-flag counts -/

theorem retireFlag_version (t w : String) (r : WorkflowRow) :
    (retireFlag t w r).version = r.version := by
  unfold retireFlag; split <;> rfl

theorem pairB_retireFlag (t w t0 w0 : String) (r : WorkflowRow) :
    pairB t w (retireFlag t0 w0 r) = pairB t w r := by
  unfold pairB retireFlag; split <;> rfl

theorem latestPairB_retireFlag_self (t w : String) (r : WorkflowRow) :
    latestPairB t w (retireFlag t w r) = false := by
  unfold latestPairB pairB retireFlag
  cases hw : r.workflowId == w <;> cases ht : r.tenantId == t <;>
    cases hl : r.isLatest <;> simp_all

theorem latestPairB_retireFlag_ne (t w t0 w0 : String) (r : WorkflowRow)
    (h : (t0 == t && w0 == w) = false) :
    latestPairB t w (retireFlag t0 w0 r) = latestPairB t w r := by
  unfold latestPairB pairB retireFlag
  cases hw : r.workflowId == w0 <;> cases ht : r.tenantId == t0 <;>
    cases hl : r.isLatest <;> simp_all [beq_iff_eq]

theorem countPair_retireLatest (t w t0 w0 : String) (db : List WorkflowRow) :
    countPair t w (retireLatest t0 w0 db) = countPair t w db := by
  unfold countPair retireLatest
  rw [List.countP_map]
  have hf : (pairB t w ∘ retireFlag t0 w0) = pairB t w :=
    funext fun r => pairB_retireFlag t w t0 w0 r
  rw [hf]

theorem countLatest_retireLatest_self (t w : String) (db : List WorkflowRow) :
    countLatest t w (retireLatest t w db) = 0 := by
  unfold countLatest retireLatest
  rw [List.countP_map]
  refine List.countP_eq_zero.mpr fun r _ => ?_
  simp [Function.comp, latestPairB_retireFlag_self]

theorem countLatest_retireLatest_ne (t w t0 w0 : String) (db : List WorkflowRow)
    (h : (t0 == t && w0 == w) = false) :
    countLatest t w (retireLatest t0 w0 db) = countLatest t w db := by
  unfold countLatest retireLatest
  rw [List.countP_map]
  have hf : (latestPairB t w ∘ retireFlag t0 w0) = latestPairB t w :=
    funext fun r => latestPairB_retireFlag_ne t w t0 w0 r h
  rw [hf]

theorem maxVersion_retireLatest (t w t0 w0 : String) (db : List WorkflowRow) :
    maxVersion t w (retireLatest t0 w0 db) = maxVersion t w db := by
  unfold maxVersion retireLatest
  rw [List.filter_map]
  have hpf : ((fun r : WorkflowRow => r.workflowId == w && r.tenantId == t) ∘ retireFlag t0 w0)
      = (fun r : WorkflowRow => r.workflowId == w && r.tenantId == t) :=
    funext fun r => by
      simp only [Function.comp_apply]
      unfold retireFlag; split <;> rfl
  rw [hpf, List.map_map]
  have hvf : ((fun r : WorkflowRow => r.version) ∘ retireFlag t0 w0)
      = (fun r : WorkflowRow => r.version) :=
    funext fun r => retireFlag_version t0 w0 r
  rw [hvf]

theorem newRowFor_tenantId (db : List WorkflowRow) (wf : WorkflowRow) (freshId : String) :
    (newRowFor db wf freshId).tenantId = wf.tenantId := by
  unfold newRowFor wfWithId; split <;> rfl

theorem newRowFor_workflowId (db : List WorkflowRow) (wf : WorkflowRow) (freshId : String) :
    (newRowFor db wf freshId).workflowId = wf.workflowId := by
  unfold newRowFor wfWithId; split <;> rfl

theorem newRowFor_isLatest (db : List WorkflowRow) (wf : WorkflowRow) (freshId : String) :
    (newRowFor db wf freshId).isLatest = true := by
  unfold newRowFor wfWithId; split <;> rfl

theorem newRowFor_version (db : List WorkflowRow) (wf : WorkflowRow) (freshId : String) :
    (newRowFor db wf freshId).version = nextVersion db wf := by
  unfold newRowFor wfWithId; split <;> rfl

theorem CreateWorkflow_ok_iff {ctx : Ctx} {db : List WorkflowRow} {wf : WorkflowRow}
    {freshId : String} {row : WorkflowRow} {db' : List WorkflowRow} :
    CreateWorkflow ctx db wf freshId = .ok (row, db') ↔
      row = newRowFor db wf freshId ∧
      db' = preInsertDb db wf ++ [newRowFor db wf freshId] ∧
      violatesPkey (preInsertDb db wf) (newRowFor db wf freshId) = false ∧
      violatesVersionIdx (preInsertDb db wf) (newRowFor db wf freshId) = false ∧
      violatesLatestIdx (preInsertDb db wf) (newRowFor db wf freshId) = false := by
  unfold CreateWorkflow insertWorkflowRow
  by_cases h1 : violatesPkey (preInsertDb db wf) (newRowFor db wf freshId) = true
  · simp [h1]
  · by_cases h2 : violatesVersionIdx (preInsertDb db wf) (newRowFor db wf freshId) = true
    · simp [h1, h2]
    · by_cases h3 : violatesLatestIdx (preInsertDb db wf) (newRowFor db wf freshId) = true
      · simp [h1, h2, h3]
      · simp only [Bool.not_eq_true] at h1 h2 h3
        simp [h1, h2, h3, and_comm, eq_comm]

theorem countLatest_eq_zero_of_latestIdx_ok {db : List WorkflowRow} {r : WorkflowRow}
    (hl : r.isLatest = true) (h : violatesLatestIdx db r = false) :
    countLatest r.tenantId r.workflowId db = 0 := by
  unfold violatesLatestIdx at h
  rw [List.any_eq_false] at h
  refine List.countP_eq_zero.mpr fun x hx => ?_
  have hx' := h x hx
  unfold latestPairB pairB
  cases h1 : x.tenantId == r.tenantId <;> cases h2 : x.workflowId == r.workflowId <;>
    cases h3 : x.isLatest <;> simp_all

theorem countPair_append (t w : String) (l l' : List WorkflowRow) :
    countPair t w (l ++ l') = countPair t w l + countPair t w l' := by
  unfold countPair; rw [List.countP_append]

theorem countLatest_append (t w : String) (l l' : List WorkflowRow) :
    countLatest t w (l ++ l') = countLatest t w l + countLatest t w l' := by
  unfold countLatest; rw [List.countP_append]

/-- The key invariant of the workflow ledger: every `(tenant_id,
workflow_id)` pair has exactly one `is_latest = true` row when the pair has
any row at all (and hence at most one always). -/
def WfInvariant (db : List WorkflowRow) : Prop :=
  ∀ t w, countLatest t w db = if countPair t w db = 0 then 0 else 1

theorem WfInvariant_nil : WfInvariant [] := by
  intro t w
  simp [countLatest, countPair]

theorem WfInvariant_applyWfOp {db : List WorkflowRow} (op : WfOp)
    (h : WfInvariant db) : WfInvariant (applyWfOp db op) := by
  unfold applyWfOp
  split
  · exact h
  · cases hc : CreateWorkflow none db op.wf op.freshId with
    | error e => exact h
    | ok pr =>
      obtain ⟨row, db'⟩ := pr
      obtain ⟨hrow, hdb', hc1, hc2, hc3⟩ := CreateWorkflow_ok_iff.mp hc
      subst hdb'
      intro t w
      rw [countLatest_append, countPair_append]
      have hrt := newRowFor_tenantId db op.wf op.freshId
      have hrw := newRowFor_workflowId db op.wf op.freshId
      have hrl := newRowFor_isLatest db op.wf op.freshId
      by_cases hp : (op.wf.tenantId == t && op.wf.workflowId == w) = true
      · -- the new row belongs to the pair under scrutiny
        obtain ⟨hpt, hpw⟩ := by simpa [beq_iff_eq] using hp
        have hpair : pairB t w (newRowFor db op.wf op.freshId) = true := by
          simp [pairB, hrt, hrw, hpt, hpw]
        have hlat : latestPairB t w (newRowFor db op.wf op.freshId) = true := by
          simp [latestPairB, hpair, hrl]
        have hzero : countLatest t w (preInsertDb db op.wf) = 0 := by
          unfold preInsertDb
          by_cases hwempty : (op.wf.workflowId != "") = true
          · rw [if_pos hwempty, ← hpt, ← hpw]
            exact countLatest_retireLatest_self _ _ db
          · rw [if_neg hwempty]
            have := countLatest_eq_zero_of_latestIdx_ok hrl (by
              unfold preInsertDb at hc3
              rw [if_neg hwempty] at hc3
              exact hc3)
            rw [hrt, hrw, hpt, hpw] at this
            exact this
        have hone : countLatest t w [newRowFor db op.wf op.freshId] = 1 := by
          simp [countLatest, List.countP_cons, hlat]
        have hone' : countPair t w [newRowFor db op.wf op.freshId] = 1 := by
          simp [countPair, List.countP_cons, hpair]
        rw [hone, hone', hzero]
        simp
      · -- the new row belongs to a different pair; counts are untouched
        simp only [Bool.not_eq_true] at hp
        have hpair : pairB t w (newRowFor db op.wf op.freshId) = false := by
          unfold pairB
          rw [hrt, hrw]
          exact hp
        have hlat : latestPairB t w (newRowFor db op.wf op.freshId) = false := by
          simp [latestPairB, hpair]
        have hl : countLatest t w (preInsertDb db op.wf) = countLatest t w db := by
          unfold preInsertDb
          split
          · exact countLatest_retireLatest_ne t w _ _ db hp
          · rfl
        have hpr : countPair t w (preInsertDb db op.wf) = countPair t w db := by
          unfold preInsertDb
          split
          · exact countPair_retireLatest t w _ _ db
          · rfl
        have hz : countLatest t w [newRowFor db op.wf op.freshId] = 0 := by
          simp [countLatest, List.countP_cons, hlat]
        have hz' : countPair t w [newRowFor db op.wf op.freshId] = 0 := by
          simp [countPair, List.countP_cons, hpair]
        rw [hz, hz', hl, hpr, Nat.add_zero, Nat.add_zero]
        exact h t w

theorem WfInvariant_foldl : ∀ (ops : List WfOp) (db : List WorkflowRow),
    WfInvariant db → WfInvariant (ops.foldl applyWfOp db)
  | [], _, h => h
  | op :: ops, db, h => WfInvariant_foldl ops _ (WfInvariant_applyWfOp op h)

/-- Claim C1: after any sequence of `CreateWorkflow` operations from the
empty table — including operations that fail partway and roll back — every
`(tenant_id, workflow_id)` pair has exactly one `is_latest = true` row when
any row exists for the pair, and none otherwise (hence always at most
one). -/
theorem workflow_latest_invariant (ops : List WfOp) (t w : String) :
    countLatest t w (runWfOps ops) =
      if countPair t w (runWfOps ops) = 0 then 0 else 1 :=
  WfInvariant_foldl ops [] WfInvariant_nil t w

theorem filter_latestPairB_retireLatest (t w : String) (db : List WorkflowRow) :
    (retireLatest t w db).filter (latestPairB t w) = [] := by
  refine List.filter_eq_nil_iff.mpr fun a ha => ?_
  obtain ⟨b, _, hb⟩ := List.mem_map.mp ha
  rw [← hb, latestPairB_retireFlag_self]
  exact Bool.false_ne_true

/-- Claim C2: `CreateWorkflow` assigns version numbers as specified: 1 for
an empty concept id, otherwise `MAX(version) + 1` over the pair's existing
rows, falling back to 1 when the concept id has no rows; the new row is
inserted with `is_latest = true` and, after the call, it is the pair's only
latest row (the previous latest having been retired). -/
theorem workflow_version_assignment (ctx : Ctx) (db : List WorkflowRow)
    (wf : WorkflowRow) (freshId : String) (row : WorkflowRow)
    (db' : List WorkflowRow)
    (h : CreateWorkflow ctx db wf freshId = .ok (row, db')) :
    row.isLatest = true ∧
    row.version = (if wf.workflowId = "" then 1 else
      match maxVersion wf.tenantId wf.workflowId db with
      | some m => m + 1
      | none => 1) ∧
    db'.filter (latestPairB wf.tenantId wf.workflowId) = [row] := by
  obtain ⟨hrow, hdb', hc1, hc2, hc3⟩ := CreateWorkflow_ok_iff.mp h
  have hrt := newRowFor_tenantId db wf freshId
  have hrw := newRowFor_workflowId db wf freshId
  have hrl := newRowFor_isLatest db wf freshId
  have hrv := newRowFor_version db wf freshId
  subst hrow
  subst hdb'
  refine ⟨hrl, ?_, ?_⟩
  · rw [hrv]
    unfold nextVersion preInsertDb
    by_cases hw : (wf.workflowId != "") = true
    · rw [if_pos hw, if_pos hw, maxVersion_retireLatest,
        if_neg (by simpa [bne_iff_ne] using hw)]
    · have hw' : wf.workflowId = "" := by simpa [bne_iff_ne] using hw
      rw [if_neg hw, if_pos hw']
  · rw [List.filter_append]
    have hsingle : List.filter (latestPairB wf.tenantId wf.workflowId)
        [newRowFor db wf freshId] = [newRowFor db wf freshId] := by
      simp [List.filter, latestPairB, pairB, hrt, hrw, hrl]
    have hnil : List.filter (latestPairB wf.tenantId wf.workflowId)
        (preInsertDb db wf) = [] := by
      unfold preInsertDb
      by_cases hw : (wf.workflowId != "") = true
      · rw [if_pos hw]
        exact filter_latestPairB_retireLatest _ _ db
      · rw [if_neg hw]
        have hz := countLatest_eq_zero_of_latestIdx_ok hrl (by
          unfold preInsertDb at hc3
          rw [if_neg hw] at hc3
          exact hc3)
        rw [hrt, hrw] at hz
        refine List.filter_eq_nil_iff.mpr fun a ha => ?_
        have := List.countP_eq_zero.mp hz a ha
        simpa using this
    rw [hsingle, hnil, List.nil_append]

/-- Witness for `workflow_version_assignment` at the scenario's second
call: evolving concept `"wf-1"` over the table holding its version-1 row. -/
theorem workflow_version_assignment_witness :
    rowV2.isLatest = true ∧
    rowV2.version = (if wfSummarizerV2.workflowId = "" then 1 else
      match maxVersion wfSummarizerV2.tenantId wfSummarizerV2.workflowId [rowV1] with
      | some m => m + 1
      | none => 1) ∧
    ([rowV1Retired, rowV2].filter
      (latestPairB wfSummarizerV2.tenantId wfSummarizerV2.workflowId)) = [rowV2] :=
  workflow_version_assignment none [rowV1] wfSummarizerV2 "uuid-b" rowV2
    [rowV1Retired, rowV2] rfl

/-- Claim C6: the spec's end-to-end scenario.  Creating the "Summarizer"
workflow on the empty store yields version 1 with `is_latest = true`;
evolving it yields version 2 with `is_latest = true` while version 1 is
retired; `ListWorkflows` for tenant A returns exactly the version-2 row;
`ListWorkflows` for the never-touched tenant B returns the empty list. -/
theorem workflow_scenario :
    CreateWorkflow none [] wfSummarizerV1 "uuid-a" = .ok (rowV1, [rowV1]) ∧
    rowV1.version = 1 ∧ rowV1.isLatest = true ∧
    CreateWorkflow none [rowV1] wfSummarizerV2 "uuid-b"
      = .ok (rowV2, [rowV1Retired, rowV2]) ∧
    rowV2.version = 2 ∧ rowV2.isLatest = true ∧
    rowV1Retired.version = 1 ∧ rowV1Retired.isLatest = false ∧
    ListWorkflows (some (CtxValue.str "tenant-a")) [rowV1Retired, rowV2] = [rowV2] ∧
    ListWorkflows (some (CtxValue.str "tenant-b")) [rowV1Retired, rowV2] = [] :=
  ⟨rfl, rfl, rfl, rfl, rfl, rfl, rfl, rfl, rfl, rfl⟩

/-! ## Helper lemmas: search, listing and tenant scoping -/

theorem mem_insertByKey (key : MemoryRow → Rat) (r a : MemoryRow) :
    ∀ l : List MemoryRow, a ∈ insertByKey key r l → a = r ∨ a ∈ l
  | [], h => by simpa [insertByKey] using h
  | x :: xs, h => by
    unfold insertByKey at h
    split at h
    · simpa using h
    · rcases List.mem_cons.mp h with h1 | h2
      · exact Or.inr (by simp [h1])
      · rcases mem_insertByKey key r a xs h2 with h3 | h4
        · exact Or.inl h3
        · exact Or.inr (List.mem_cons_of_mem x h4)

theorem mem_sortByKey (key : MemoryRow → Rat) (a : MemoryRow) :
    ∀ l : List MemoryRow, a ∈ sortByKey key l → a ∈ l
  | [], h => by simp [sortByKey] at h
  | x :: xs, h => by
    unfold sortByKey at h
    rcases mem_insertByKey key x a _ h with h1 | h2
    · simp [h1]
    · exact List.mem_cons_of_mem x (mem_sortByKey key a xs h2)

theorem mem_Search_tenantId (dist : List Rat → List Rat → Rat) (ctx : Ctx)
    (db : List MemoryRow) (emb : List Rat) (m : Memory)
    (h : m ∈ Search dist ctx db emb) : m.tenantId = resolveCtxTenant ctx := by
  simp only [Search] at h
  obtain ⟨r, hr, hrm⟩ := List.mem_map.mp h
  have hr2 := mem_sortByKey _ r _ (List.mem_of_mem_take hr)
  have hr3 := (List.mem_filter.mp hr2).2
  rw [← hrm]
  show r.tenantId = resolveCtxTenant ctx
  simpa [beq_iff_eq] using hr3

theorem mem_ListWorkflows_tenantId (ctx : Ctx) (db : List WorkflowRow)
    (r : WorkflowRow) (h : r ∈ ListWorkflows ctx db) :
    r.tenantId = resolveCtxTenant ctx := by
  unfold ListWorkflows at h
  have := (List.mem_filter.mp h).2
  simp only [Bool.and_eq_true, beq_iff_eq] at this
  exact this.2

theorem Search_append_other (dist : List Rat → List Rat → Rat) (ctx : Ctx)
    (db extra : List MemoryRow) (emb : List Rat)
    (h : ∀ r ∈ extra, r.tenantId ≠ resolveCtxTenant ctx) :
    Search dist ctx (db ++ extra) emb = Search dist ctx db emb := by
  simp only [Search, List.filter_append]
  have hnil : extra.filter (fun r => r.tenantId == resolveCtxTenant ctx) = [] :=
    List.filter_eq_nil_iff.mpr fun r hr => by simpa [beq_iff_eq] using h r hr
  rw [hnil, List.append_nil]

theorem ListWorkflows_append_other (ctx : Ctx) (db extra : List WorkflowRow)
    (h : ∀ r ∈ extra, r.tenantId ≠ resolveCtxTenant ctx) :
    ListWorkflows ctx (db ++ extra) = ListWorkflows ctx db := by
  simp only [ListWorkflows, List.filter_append]
  have hnil : extra.filter (fun r => r.isLatest && r.tenantId == resolveCtxTenant ctx) = [] :=
    List.filter_eq_nil_iff.mpr fun r hr => by
      simp only [Bool.and_eq_true, beq_iff_eq, not_and]
      exact fun _ => h r hr
  rw [hnil, List.append_nil]

theorem CreateWorkflow_other_tenant_preserved (ctx : Ctx)
    (db : List WorkflowRow) (wf : WorkflowRow) (freshId : String)
    (row : WorkflowRow) (db' : List WorkflowRow)
    (h : CreateWorkflow ctx db wf freshId = .ok (row, db')) :
    row.tenantId = wf.tenantId ∧
    ∀ r ∈ db, r.tenantId ≠ wf.tenantId → r ∈ db' := by
  obtain ⟨hrow, hdb', -, -, -⟩ := CreateWorkflow_ok_iff.mp h
  subst hrow
  subst hdb'
  refine ⟨newRowFor_tenantId db wf freshId, fun r hr hne => ?_⟩
  refine List.mem_append_left _ ?_
  unfold preInsertDb
  split
  · refine List.mem_map.mpr ⟨r, hr, ?_⟩
    unfold retireFlag
    rw [if_neg ?_]
    intro hcon
    simp only [Bool.and_eq_true, beq_iff_eq] at hcon
    exact hne hcon.1.2
  · exact hr

/-! ## C3: feedback is an in-place edit, not a new version -/

theorem Update_length (ctx : Ctx) (db : List MemoryRow) (m : Memory) :
    (Update ctx db m).length = db.length := by
  unfold Update
  exact List.length_map db _

theorem Update_mem_of_ne (ctx : Ctx) (db : List MemoryRow) (m : Memory)
    (r : MemoryRow) (hr : r ∈ db) (hne : (r.id == m.id) = false) :
    r ∈ Update ctx db m := by
  unfold Update
  refine List.mem_map.mpr ⟨r, hr, ?_⟩
  simp [hne]

theorem Update_confidence (ctx : Ctx) (db : List MemoryRow) (m : Memory) :
    ∀ r' ∈ Update ctx db m, r'.id = m.id → r'.confidence = m.confidence := by
  intro r' hr' hid
  unfold Update at hr'
  obtain ⟨r, hr, hfr⟩ := List.mem_map.mp hr'
  by_cases hc : (r.id == m.id) = true
  · rw [← hfr]
    simp [hc]
  · simp only [Bool.not_eq_true] at hc
    have hrr : r' = r := by rw [← hfr]; simp [hc]
    rw [hrr] at hid
    exact absurd hid (by simpa [beq_iff_eq] using hc)

/-- Claim C3 counterexample: `GiveFeedback` on a one-row store edits that
row in place — the table keeps a single row, and the original version-1
snapshot (`confidence = 1/2`) is gone, replaced by the adjusted row.  No
new memory version is created, refuting "a feedback event produces a new
memory version, never an in-place confidence edit". -/
theorem feedback_in_place_counterexample :
    GiveFeedback none [mRow0] "m1" (9/10)
      = .ok [{ mRow0 with confidence := 9/10, version := 2 }] ∧
    [{ mRow0 with confidence := 9/10, version := 2 }].length = [mRow0].length ∧
    mRow0 ∉ [{ mRow0 with confidence := 9/10, version := 2 }] :=
  ⟨rfl, rfl, by
    intro hmem
    have h2 := congrArg MemoryRow.version (List.mem_singleton.mp hmem)
    simp [mRow0] at h2⟩

/-- Claim C3 (amended): `GiveFeedback` edits the memory row in place
rather than creating a new version: on success the table has the same
number of rows, rows with other ids are untouched, and every row carrying
the given id now holds the new confidence — the prior snapshot is
overwritten, not preserved. -/
theorem feedback_in_place (ctx : Ctx) (db : List MemoryRow) (i : String)
    (conf : Rat) (db' : List MemoryRow)
    (h : GiveFeedback ctx db i conf = .ok db') :
    db'.length = db.length ∧
    (∀ r ∈ db, r.id ≠ i → r ∈ db') ∧
    (∀ r' ∈ db', r'.id = i → r'.confidence = conf) := by
  unfold GiveFeedback at h
  cases hg : Get ctx db i with
  | none => rw [hg] at h; exact absurd h (by simp)
  | some m =>
    rw [hg] at h
    have hdb' : Update ctx db { m with confidence := conf, version := m.version + 1 } = db' :=
      Except.ok.inj h
    have hmid : m.id = i := by
      unfold Get at hg
      obtain ⟨r0, hf, hr0⟩ := Option.map_eq_some'.mp hg
      have := List.find?_some hf
      rw [← hr0]
      show r0.id = i
      simpa [beq_iff_eq] using this
    subst hdb'
    refine ⟨Update_length ctx db _, fun r hr hne => ?_, fun r' hr' hid => ?_⟩
    · refine Update_mem_of_ne ctx db _ r hr ?_
      show (r.id == m.id) = false
      rw [hmid]
      simpa [beq_iff_eq] using hne
    · have := Update_confidence ctx db _ r' hr'
        (show r'.id = m.id from hid.trans hmid.symm)
      exact this

/-- Witness for `feedback_in_place`: the one-row store of the
counterexample. -/
theorem feedback_in_place_witness :
    ([{ mRow0 with confidence := 9/10, version := 2 }] : List MemoryRow).length
      = ([mRow0] : List MemoryRow).length :=
  (feedback_in_place none [mRow0] "m1" (9/10)
    [{ mRow0 with confidence := 9/10, version := 2 }] rfl).1

/-! ## C4: tenant scoping of the store operations -/

/-- Claim C4 counterexample: `Get` and `Update` are keyed by the memory id
only.  With tenant A (`"tenant-a"`) in scope, `Get` returns tenant B's
memory, and `Update` overwrites tenant B's row — so not every store
read/write is scoped by the caller's tenant. -/
theorem tenant_scoping_counterexample :
    Get (some (CtxValue.str "tenant-a")) [mRowB] "m1" = some (rowToMemory mRowB) ∧
    (rowToMemory mRowB).tenantId = "tenant-b" ∧
    Update (some (CtxValue.str "tenant-a")) [mRowB] memTampered
      = [{ mRowB with content := "tampered", confidence := 1, version := 2 }] ∧
    ({ mRowB with content := "tampered", confidence := 1, version := 2 } : MemoryRow) ≠ mRowB :=
  ⟨rfl, rfl, rfl, by
    intro heq
    have h2 := congrArg MemoryRow.content heq
    simp [mRowB] at h2⟩

/-- Claim C4 (amended): `Search`, `ListWorkflows`, `CreateWorkflow` and
`Save` are tenant-scoped — their results/effects involve only rows of the
resolved (or supplied) tenant and are unchanged by other tenants' data —
while `Get` and `Update` are keyed by the memory id only and ignore the
caller's tenant entirely. -/
theorem tenant_scoping_amended :
    (∀ (dist : List Rat → List Rat → Rat) (ctx : Ctx) (db : List MemoryRow)
        (emb : List Rat), ∀ m ∈ Search dist ctx db emb,
        m.tenantId = resolveCtxTenant ctx) ∧
    (∀ (ctx : Ctx) (db : List WorkflowRow), ∀ r ∈ ListWorkflows ctx db,
        r.tenantId = resolveCtxTenant ctx) ∧
    (∀ (dist : List Rat → List Rat → Rat) (ctx : Ctx)
        (db extra : List MemoryRow) (emb : List Rat),
        (∀ r ∈ extra, r.tenantId ≠ resolveCtxTenant ctx) →
        Search dist ctx (db ++ extra) emb = Search dist ctx db emb) ∧
    (∀ (ctx : Ctx) (db extra : List WorkflowRow),
        (∀ r ∈ extra, r.tenantId ≠ resolveCtxTenant ctx) →
        ListWorkflows ctx (db ++ extra) = ListWorkflows ctx db) ∧
    (∀ (ctx : Ctx) (db : List WorkflowRow) (wf : WorkflowRow)
        (freshId : String) (row : WorkflowRow) (db' : List WorkflowRow),
        CreateWorkflow ctx db wf freshId = .ok (row, db') →
        row.tenantId = wf.tenantId ∧
        ∀ r ∈ db, r.tenantId ≠ wf.tenantId → r ∈ db') ∧
    (∀ (ctx : Ctx) (db : List MemoryRow) (m : Memory)
        (db' : List MemoryRow), Save ctx db m = .ok db' →
        db' = db ++ [memoryToRow m] ∧ (memoryToRow m).tenantId = m.tenantId) ∧
    (∀ (ctx ctx' : Ctx) (db : List MemoryRow) (i : String),
        Get ctx db i = Get ctx' db i) ∧
    (∀ (ctx ctx' : Ctx) (db : List MemoryRow) (m : Memory),
        Update ctx db m = Update ctx' db m) := by
  refine ⟨mem_Search_tenantId, mem_ListWorkflows_tenantId,
    Search_append_other, ListWorkflows_append_other,
    CreateWorkflow_other_tenant_preserved, ?_, fun _ _ _ _ => rfl,
    fun _ _ _ _ => rfl⟩
  intro ctx db m db' h
  unfold Save at h
  split at h
  · exact absurd h (by simp)
  · exact ⟨(Except.ok.inj h).symm, rfl⟩

/-- Witness for `tenant_scoping_amended`, each hypothesis-bearing conjunct
applied at a concrete store. -/
theorem tenant_scoping_amended_witness :
    (rowToMemory mRowDefault).tenantId = resolveCtxTenant none ∧
    rowWfDefault.tenantId = resolveCtxTenant none ∧
    Search (fun _ _ => 0) none ([mRowDefault] ++ [mRowB]) []
      = Search (fun _ _ => 0) none [mRowDefault] [] ∧
    ListWorkflows none ([rowWfDefault] ++ [rowV2]) = ListWorkflows none [rowWfDefault] ∧
    rowV1.tenantId = wfSummarizerV1.tenantId ∧
    ([mRowB] ++ [memoryToRow (rowToMemory mRowDefault)]) = [mRowB] ++ [memoryToRow (rowToMemory mRowDefault)] :=
  ⟨tenant_scoping_amended.1 (fun _ _ => 0) none [mRowDefault] []
      (rowToMemory mRowDefault) (by decide),
   tenant_scoping_amended.2.1 none [rowWfDefault] rowWfDefault (by decide),
   tenant_scoping_amended.2.2.1 (fun _ _ => 0) none [mRowDefault] [mRowB] []
      (by decide),
   tenant_scoping_amended.2.2.2.1 none [rowWfDefault] [rowV2] (by decide),
   (tenant_scoping_amended.2.2.2.2.1 none [] wfSummarizerV1 "uuid-a" rowV1 [rowV1] rfl).1,
   (tenant_scoping_amended.2.2.2.2.2.1 none [mRowB] (rowToMemory mRowDefault)
      ([mRowB] ++ [memoryToRow (rowToMemory mRowDefault)]) rfl).1⟩

/-! ## C9: embedding failures propagate, nothing is persisted -/

/-- Claim C9: whenever the embedding collaborator fails, `Remember` returns
that failure and performs no store write (so no memory is ever persisted
with a missing embedding as a result of the failure), and `Recall` returns
the failure as well. -/
theorem embedding_failure_propagates :
    (∀ (ml : MLClient) (ctx : Ctx) (db : List MemoryRow)
        (content freshId e : String), ml content = .error e →
        Remember ml ctx db content freshId = (.error e, db)) ∧
    (∀ (ml : MLClient) (dist : List Rat → List Rat → Rat) (ctx : Ctx)
        (db : List MemoryRow) (query e : String), ml query = .error e →
        Recall ml dist ctx db query = .error e) := by
  constructor
  · intro ml ctx db content freshId e h
    unfold Remember
    rw [h]
  · intro ml dist ctx db query e h
    unfold Recall
    rw [h]

/-- Witness for `embedding_failure_propagates`: a client that always
reports the sidecar as unavailable. -/
theorem embedding_failure_propagates_witness :
    Remember (fun _ => .error "ml sidecar unavailable") none [mRowDefault] "hello" "m9"
      = (.error "ml sidecar unavailable", [mRowDefault]) ∧
    Recall (fun _ => .error "ml sidecar unavailable") (fun _ _ => 0) none [mRowDefault] "hello"
      = .error "ml sidecar unavailable" :=
  ⟨embedding_failure_propagates.1 (fun _ => .error "ml sidecar unavailable")
      none [mRowDefault] "hello" "m9" "ml sidecar unavailable" rfl,
   embedding_failure_propagates.2 (fun _ => .error "ml sidecar unavailable")
      (fun _ _ => 0) none [mRowDefault] "hello" "ml sidecar unavailable" rfl⟩

/-! ## C10: missing or non-string tenant context falls back to "default" -/

/-- Claim C10: when the request context carries no tenant id (or a
non-string value), `Search` and `ListWorkflows` do not fail: they resolve
the literal tenant `"default"`, behave exactly as if `"default"` had been
supplied, and return only rows of that tenant. -/
theorem default_tenant_fallback :
    resolveCtxTenant none = "default" ∧
    resolveCtxTenant (some CtxValue.nonStr) = "default" ∧
    (∀ db : List WorkflowRow,
        ListWorkflows none db = ListWorkflows (some (CtxValue.str "default")) db ∧
        ListWorkflows (some CtxValue.nonStr) db
          = ListWorkflows (some (CtxValue.str "default")) db) ∧
    (∀ (dist : List Rat → List Rat → Rat) (db : List MemoryRow) (emb : List Rat),
        Search dist none db emb = Search dist (some (CtxValue.str "default")) db emb ∧
        Search dist (some CtxValue.nonStr) db emb
          = Search dist (some (CtxValue.str "default")) db emb) ∧
    (∀ db : List WorkflowRow, ∀ r ∈ ListWorkflows none db, r.tenantId = "default") ∧
    (∀ (dist : List Rat → List Rat → Rat) (db : List MemoryRow) (emb : List Rat),
        ∀ m ∈ Search dist none db emb, m.tenantId = "default") := by
  refine ⟨rfl, rfl, fun db => ⟨rfl, rfl⟩, fun dist db emb => ⟨rfl, rfl⟩,
    fun db r hr => ?_, fun dist db emb m hm => ?_⟩
  · exact mem_ListWorkflows_tenantId none db r hr
  · exact mem_Search_tenantId dist none db emb m hm

/-- Witness for `default_tenant_fallback`: the default tenant's rows come
back for a context with no tenant value. -/
theorem default_tenant_fallback_witness :
    rowWfDefault.tenantId = "default" ∧ (rowToMemory mRowDefault).tenantId = "default" :=
  ⟨default_tenant_fallback.2.2.2.2.1 [rowWfDefault] rowWfDefault (by decide),
   default_tenant_fallback.2.2.2.2.2 (fun _ _ => 0) [mRowDefault] []
      (rowToMemory mRowDefault) (by decide)⟩

/-! ## C5: the tenant-provisioning uniqueness race -/

/-- Claim C5 evaluation at the racing input of spec §8: two requests for
domain `"newco.io"` both look it up against the empty table and find
nothing; the first one provisions the tenant; the second request's
provisioning branch then hits the uniqueness violation on `domain` and
propagates the wrapped insert error to the caller — it does not re-fetch
the now-existing tenant, although a re-fetch would succeed. -/
theorem tenant_provision_race_propagates :
    GetTenantByDomain [] "newco.io" = none ∧
    lookupOrProvisionTenant [] "newco.io" "tid-a"
      = .ok ("tid-a", [{ id := "tid-a", name := "newco.io", domain := "newco.io" }]) ∧
    provisionAfterMiss [{ id := "tid-a", name := "newco.io", domain := "newco.io" }]
        "newco.io" "tid-b"
      = .error "failed to provision tenant: duplicate key value violates unique constraint tenants_domain_key" ∧
    GetTenantByDomain [{ id := "tid-a", name := "newco.io", domain := "newco.io" }] "newco.io"
      = some { id := "tid-a", name := "newco.io", domain := "newco.io" } :=
  ⟨rfl, rfl, rfl, rfl⟩

/-! ## C7: audience policy per credential transport -/

/-- Claim C7: credential verification applies different audience policies
per transport.  The bearer (`Authorization` header) path skips the
client-id/audience check while signature and expiry remain mandatory; the
session-cookie path additionally requires the audience to equal the
server's own client id.  Hence any valid, unexpired token whose audience
differs from the server's client id verifies in bearer mode and is
rejected in session-cookie mode. -/
theorem audience_policy_per_transport :
    (∀ (a : AuthState) (tok : OidcToken), tok.signatureValid = false →
        verifyCredential a .bearer tok = .error .invalidSignature ∧
        verifyCredential a .sessionCookie tok = .error .invalidSignature) ∧
    (∀ (a : AuthState) (tok : OidcToken), tok.signatureValid = true →
        tok.isExpired = true →
        verifyCredential a .bearer tok = .error .expired ∧
        verifyCredential a .sessionCookie tok = .error .expired) ∧
    (∀ (a : AuthState) (tok : OidcToken), tok.signatureValid = true →
        tok.isExpired = false →
        verifyCredential a .bearer tok = .ok tok) ∧
    (∀ (a : AuthState) (tok : OidcToken), tok.signatureValid = true →
        tok.isExpired = false → tok.audience ≠ a.clientID →
        verifyCredential a .sessionCookie tok = .error .invalidAudience) := by
  refine ⟨?_, ?_, ?_, ?_⟩
  · intro a tok h1
    constructor <;> simp [verifyCredential, oidcVerify, apiVerifierCfg, sessionVerifierCfg, h1]
  · intro a tok h1 h2
    constructor <;> simp [verifyCredential, oidcVerify, apiVerifierCfg, sessionVerifierCfg, h1, h2]
  · intro a tok h1 h2
    simp [verifyCredential, oidcVerify, apiVerifierCfg, h1, h2]
  · intro a tok h1 h2 h3
    simp [verifyCredential, oidcVerify, sessionVerifierCfg, h1, h2, bne_iff_ne, h3]

/-- Witness for `audience_policy_per_transport`: the spec's scenario token
with audience `"api://default"` against a server registered as
`"server-client-id"`. -/
theorem audience_policy_per_transport_witness :
    verifyCredential { clientID := "server-client-id" } .bearer
        { audience := "api://default" } = .ok { audience := "api://default" } ∧
    verifyCredential { clientID := "server-client-id" } .sessionCookie
        { audience := "api://default" } = .error .invalidAudience :=
  ⟨audience_policy_per_transport.2.2.1 { clientID := "server-client-id" }
      { audience := "api://default" } rfl rfl,
   audience_policy_per_transport.2.2.2 { clientID := "server-client-id" }
      { audience := "api://default" } rfl rfl (by decide)⟩

/-! ## C8: the development bypass gating -/

/-- Claim C8: the development bypass is active exactly when the environment
equals `"DEV"` case-insensitively and the separate `DevModeBypass` flag is
set; whenever either condition fails, the bypass branch is unreachable and
the full verification path runs; when it is active, verification is
skipped and the fixed placeholder identity is substituted. -/
theorem dev_bypass_gating :
    (∀ (environment : String) (b : Bool) (cid : String),
        (authNew environment b cid).authBypass = true ↔
          (strToUpper environment = "DEV" ∧ b = true)) ∧
    (∀ (environment : String) (b : Bool) (cid : String) (tr : Transport)
        (tok : OidcToken),
        (authNew environment b cid).authBypass = false →
        requireAuthEmail (authNew environment b cid) tr tok
          = verifiedEmail (authNew environment b cid) tr tok) ∧
    (∀ (environment : String) (b : Bool) (cid : String) (tr : Transport)
        (tok : OidcToken),
        (authNew environment b cid).authBypass = true →
        requireAuthEmail (authNew environment b cid) tr tok = .ok "dev@localhost") := by
  refine ⟨?_, ?_, ?_⟩
  · intro env b cid
    simp [authNew, shouldBypass, isDevEnv, Bool.and_eq_true, beq_iff_eq]
  · intro env b cid tr tok h
    simp [requireAuthEmail, h]
  · intro env b cid tr tok h
    simp [requireAuthEmail, h]

/-- Witness for `dev_bypass_gating`: a production environment runs the
verification path even with the flag set, and a `"dev"` environment with
the flag set substitutes the placeholder identity even for a token whose
signature is invalid. -/
theorem dev_bypass_gating_witness :
    ((authNew "Dev" true "cid").authBypass = true ↔
      (strToUpper "Dev" = "DEV" ∧ true = true)) ∧
    requireAuthEmail (authNew "PROD" true "cid") .bearer ({} : OidcToken)
      = verifiedEmail (authNew "PROD" true "cid") .bearer ({} : OidcToken) ∧
    requireAuthEmail (authNew "dev" true "cid") .sessionCookie
        ({ signatureValid := false } : OidcToken) = .ok "dev@localhost" :=
  ⟨dev_bypass_gating.1 "Dev" true "cid",
   dev_bypass_gating.2.1 "PROD" true "cid" .bearer ({} : OidcToken) (by decide),
   dev_bypass_gating.2.2 "dev" true "cid" .sessionCookie
     ({ signatureValid := false } : OidcToken) (by decide)⟩

end EvolutionaryMCP
